import Mathlib

/-!
# Backlit Crafts storefront script (`static/js/main.js`)

A shallow embedding of the event handlers of `main.js` as pure functions on
explicit page state, followed by the properties proved about them.

Conventions of the embedding:

* a JavaScript string is modelled by the Lean `String` with the same code
  points; its `length` is the number of UTF-16 code units (`jsLength`);
* DOM state touched by a handler is a field of a structure, and a handler is
  a function from the state before the event to the state after it;
* a `setTimeout` call records its delay and callback as a pending timer, and
  the callback is run by an explicit `fire` function;
* the outcome of a `fetch` is an input of the handler that consumes it;
* an assignment to `innerHTML` parses the assigned markup, and the getter
  returns the serialisation of what was parsed: the handlers take that
  composition, `reparse`, as an input.
-/

namespace Walls

/-! ## JavaScript text primitives -/

/-- Code points matched by `\s` in a regular expression and removed by
`String.prototype.trim`: the WhiteSpace and LineTerminator productions. -/
def isWhiteSpace (c : Char) : Bool :=
  let n := c.toNat
  n == 0x09 || n == 0x0A || n == 0x0B || n == 0x0C || n == 0x0D || n == 0x20 ||
  n == 0xA0 || n == 0x1680 || (0x2000 ≤ n && n ≤ 0x200A) || n == 0x2028 ||
  n == 0x2029 || n == 0x202F || n == 0x205F || n == 0x3000 || n == 0xFEFF

/-- The characters of `s.trim()`. -/
def trimChars (s : List Char) : List Char :=
  ((s.dropWhile isWhiteSpace).reverse.dropWhile isWhiteSpace).reverse

/-- The method `String.prototype.trim`. -/
def jsTrim (s : String) : String := ⟨trimChars s.data⟩

/-- Number of UTF-16 code units of one code point. -/
def utf16Units (c : Char) : Nat := if c.toNat < 0x10000 then 1 else 2

/-- The property `length` of a JavaScript string: its number of UTF-16 code units. -/
def jsLength (s : String) : Nat := (s.data.map utf16Units).sum

/-! ## Regular expressions

Both regular expressions of `validateInput` have the shape `^a₁ a₂ … aₙ$`
where each `aᵢ` is a character class with a repetition range. -/

/-- A character class repeated between `min` and `max` times; `max = none`
stands for an unbounded repetition. -/
structure Atom where
  cls : Char → Bool
  min : Nat
  max : Option Nat

/-- Whether a repetition count is allowed by an atom. -/
def Atom.allows (a : Atom) (k : Nat) : Bool :=
  decide (a.min ≤ k) && (match a.max with
    | none => true
    | some m => decide (k ≤ m))

/-- The method `RegExp.prototype.test` for an anchored sequence of atoms: some
split of the whole input gives every atom an allowed number of characters of
its class. -/
def regexTest : List Atom → List Char → Bool
  | [], s => s.isEmpty
  | a :: rest, s =>
    (List.range (s.length + 1)).any fun k =>
      a.allows k && (s.take k).all a.cls && regexTest rest (s.drop k)

/-- The class `[^\s@]`. -/
def notSpaceAt (c : Char) : Bool := !(isWhiteSpace c || c == '@')

/-- The class `\d`, the ASCII digits. -/
def isDecimalDigit (c : Char) : Bool :=
  decide ('0'.toNat ≤ c.toNat) && decide (c.toNat ≤ '9'.toNat)

/-- The class `[1-9]`. -/
def isNonZeroDigit (c : Char) : Bool :=
  decide ('1'.toNat ≤ c.toNat) && decide (c.toNat ≤ '9'.toNat)

/-- The class `[\s\-\(\)]` removed from a phone number before it is tested. -/
def isPhoneSeparator (c : Char) : Bool :=
  isWhiteSpace c || c == '-' || c == '(' || c == ')'

/-- The literal `/^[^\s@]+@[^\s@]+\.[^\s@]+$/`. -/
def emailRegex : List Atom :=
  [⟨notSpaceAt, 1, none⟩, ⟨fun c => c == '@', 1, some 1⟩, ⟨notSpaceAt, 1, none⟩,
   ⟨fun c => c == '.', 1, some 1⟩, ⟨notSpaceAt, 1, none⟩]

/-- The literal `/^[\+]?[1-9][\d]{0,15}$/`. -/
def phoneRegex : List Atom :=
  [⟨fun c => c == '+', 0, some 1⟩, ⟨isNonZeroDigit, 1, some 1⟩, ⟨isDecimalDigit, 0, some 15⟩]

/-! ## Form validation -/

/-- A DOM token list (`classList`): `add` appends a token that is absent. -/
def classAdd (cs : List String) (c : String) : List String :=
  if c ∈ cs then cs else cs ++ [c]

/-- A DOM token list (`classList`): `remove` deletes the token. -/
def classRemove (cs : List String) (c : String) : List String :=
  cs.filter fun x => x != c

/-- The state of an `<input>` read and written by `validateInput`.
`feedback` lists the text of the `.invalid-feedback` elements below the
input's parent node, in document order. -/
structure Input where
  value : String
  type : String
  required : Bool
  classList : List String
  feedback : List String
deriving DecidableEq

/-- The function `removeErrorMessage`: removes the first `.invalid-feedback`
element below the parent node, if there is one. -/
def removeErrorMessage (input : Input) : Input :=
  { input with feedback := input.feedback.tail }

/-- The function `showErrorMessage`: removes an existing message and appends a
new `.invalid-feedback` element as last child of the parent node. -/
def showErrorMessage (input : Input) (message : String) : Input :=
  let input := removeErrorMessage input
  { input with feedback := input.feedback ++ [message] }

/-- The checks of `validateInput`, returning `(isValid, errorMessage)`. -/
def validateChecks (input : Input) : Bool × String :=
  let value := jsTrim input.value
  let r : Bool × String := (true, "")
  let r := if input.required && value.data.isEmpty then
      (false, "This field is required") else r
  let r := if input.type == "email" && !value.data.isEmpty then
      (if !regexTest emailRegex value.data then
        (false, "Please enter a valid email address") else r) else r
  let r := if input.type == "password" && !value.data.isEmpty then
      (if jsLength value < 6 then
        (false, "Password must be at least 6 characters long") else r) else r
  let r := if input.type == "tel" && !value.data.isEmpty then
      (if !regexTest phoneRegex (value.data.filter fun c => !isPhoneSeparator c) then
        (false, "Please enter a valid phone number") else r) else r
  r

/-- The function `validateInput`: the returned flag and the input after its
class list and error message were updated. -/
def validateInput (input : Input) : Bool × Input :=
  let (isValid, errorMessage) := validateChecks input
  if isValid then
    let input := { input with classList := classRemove input.classList "is-invalid" }
    let input := { input with classList := classAdd input.classList "is-valid" }
    (true, removeErrorMessage input)
  else
    let input := { input with classList := classRemove input.classList "is-valid" }
    let input := { input with classList := classAdd input.classList "is-invalid" }
    (false, showErrorMessage input errorMessage)

/-! ## Numbers of the quantity control

The quantity handlers read a number with `parseInt`, add or subtract one and
write the number back as text. A JavaScript Number is an IEEE-754 double; the
integers of magnitude up to `2 ^ 53` are the range in which consecutive
integers are all representable, and the model covers exactly that range. -/

/-- A Number that is `NaN` or an integer of magnitude at most `2 ^ 53`. -/
inductive JSNumber where
  | nan
  | int (i : Int)
deriving DecidableEq

/-- Largest magnitude up to which every integer is a double: `2 ^ 53`. -/
def maxContiguous : Nat := 9007199254740992

/-- Value of a digit character in `parseInt`, for radix up to 36. -/
def digitValue (c : Char) : Option Nat :=
  if '0'.toNat ≤ c.toNat ∧ c.toNat ≤ '9'.toNat then some (c.toNat - '0'.toNat)
  else if 'a'.toNat ≤ c.toNat ∧ c.toNat ≤ 'z'.toNat then some (c.toNat - 'a'.toNat + 10)
  else if 'A'.toNat ≤ c.toNat ∧ c.toNat ≤ 'Z'.toNat then some (c.toNat - 'A'.toNat + 10)
  else none

/-- Whether a character is a digit of the radix. -/
def isRadixDigit (radix : Nat) (c : Char) : Bool :=
  match digitValue c with
  | some v => decide (v < radix)
  | none => false

/-- The integer denoted by a run of digits, most significant first. -/
def digitsValue (radix : Nat) (ds : List Char) : Nat :=
  ds.foldl (fun acc c => acc * radix + (digitValue c).getD 0) 0

/-- The sign of `parseInt`: an optional leading `-` or `+`. -/
def stripSign : List Char → Bool × List Char
  | '-' :: r => (true, r)
  | '+' :: r => (false, r)
  | r => (false, r)

/-- The radix of `parseInt` called without one: 16 after a prefix `0x` or `0X`,
which is removed, and 10 otherwise. -/
def stripRadix : List Char → Nat × List Char
  | '0' :: 'x' :: r => (16, r)
  | '0' :: 'X' :: r => (16, r)
  | r => (10, r)

/-- The function `parseInt(string)` called without a radix: leading white
space is skipped, a sign and a `0x` prefix are recognised, and the longest run
of digits is read; without a digit the result is `NaN`. The result is `none`
when the integer read exceeds `2 ^ 53` in magnitude, which is outside the
range of numbers modelled. -/
def parseInt (s : String) : Option JSNumber :=
  let signed := stripSign (s.data.dropWhile isWhiteSpace)
  let based := stripRadix signed.2
  let ds := based.2.takeWhile (isRadixDigit based.1)
  if ds.isEmpty then some JSNumber.nan
  else
    let v := digitsValue based.1 ds
    if v ≤ maxContiguous then some (JSNumber.int (if signed.1 then -(v : Int) else v))
    else none

/-- The postfix increment `qty++` on a Number: `2 ^ 53 + 1` is not a double and
rounds back to `2 ^ 53`. -/
def JSNumber.incr : JSNumber → JSNumber
  | nan => nan
  | int i => if i < maxContiguous then int (i + 1) else int i

/-- The postfix decrement `qty--` on a Number: `-(2 ^ 53) - 1` is not a double
and rounds back to `-(2 ^ 53)`. -/
def JSNumber.decr : JSNumber → JSNumber
  | nan => nan
  | int i => if -(maxContiguous : Int) < i then int (i - 1) else int i

/-- The comparison `qty > 1`; it is false for `NaN`. -/
def JSNumber.gtOne : JSNumber → Bool
  | nan => false
  | int i => decide (1 < i)

/-- Conversion of a Number to the text assigned to `innerText` and `value`. -/
def JSNumber.toText : JSNumber → String
  | nan => "NaN"
  | int i => if i < 0 then "-" ++ Nat.repr i.natAbs else Nat.repr i.natAbs

/-! ## The `.cart-form` handlers -/

/-- State of one `.cart-form` and of the toast elements of the page.
`submits` counts the calls of `form.submit()` and `toastLog` records the
messages passed to `showToast`; `hideTimers` holds the delays of the pending
callbacks that remove class `show` from the toast. -/
structure CartForm where
  productName : String
  opened : Bool
  qtyControlDisplay : String
  qtyDisplay : String
  qtyField : String
  submits : Nat
  toastMessage : String
  toastClasses : List String
  toastLog : List String
  hideTimers : List Nat
deriving DecidableEq

/-- The function `showToast`. -/
def showToast (f : CartForm) (message : String) : CartForm :=
  { f with
    toastMessage := message
    toastClasses := classAdd f.toastClasses "show"
    toastLog := f.toastLog ++ [message]
    hideTimers := f.hideTimers ++ [2500] }

/-- The click listener of `.add-to-cart-btn`. -/
def addToCartClick (f : CartForm) : CartForm :=
  if !f.opened then
    { f with qtyControlDisplay := "flex", opened := true }
  else
    let f := { f with submits := f.submits + 1 }
    showToast f (f.productName ++ " has been added to your cart")

/-- The page after `n` clicks on `.add-to-cart-btn`. -/
def addToCartClicks : Nat → CartForm → CartForm
  | 0, f => f
  | n + 1, f => addToCartClick (addToCartClicks n f)

/-- The click listener of `.increase`. -/
def increaseClick (f : CartForm) : Option CartForm := do
  let qty ← parseInt f.qtyDisplay
  let qty := qty.incr
  pure { f with qtyDisplay := qty.toText, qtyField := qty.toText }

/-- The click listener of `.decrease`. -/
def decreaseClick (f : CartForm) : Option CartForm := do
  let qty ← parseInt f.qtyDisplay
  if qty.gtOne then
    let qty := qty.decr
    pure { f with qtyDisplay := qty.toText, qtyField := qty.toText }
  else
    pure f

/-- A click on one of the two quantity buttons. -/
inductive QtyClick where
  | increase
  | decrease
deriving DecidableEq

/-- The listener run by a click on a quantity button. -/
def qtyClick (f : CartForm) : QtyClick → Option CartForm
  | .increase => increaseClick f
  | .decrease => decreaseClick f

/-- A sequence of clicks on the quantity buttons, in order. -/
def qtyClicks (f : CartForm) : List QtyClick → Option CartForm
  | [] => some f
  | c :: cs => (qtyClick f c).bind fun g => qtyClicks g cs

/-- The quantity the specification expects after one click. -/
def specQtyStep (q : Nat) : QtyClick → Nat
  | .increase => q + 1
  | .decrease => if 1 < q then q - 1 else q

/-- The quantity the specification expects after a sequence of clicks. -/
def specQty (q : Nat) (cs : List QtyClick) : Nat := cs.foldl specQtyStep q

/-! ## Theme -/

/-- The body class list and `localStorage`; `writes` records every call of
`localStorage.setItem` as a key and a value. -/
structure ThemePage where
  bodyClasses : List String
  storage : List (String × String)
  writes : List (String × String)
deriving DecidableEq

/-- The method `localStorage.getItem`. -/
def getItem (storage : List (String × String)) (key : String) : Option String :=
  (storage.find? fun kv => kv.1 == key).map Prod.snd

/-- The method `localStorage.setItem`. -/
def setItem (p : ThemePage) (key value : String) : ThemePage :=
  { p with
    storage := (key, value) :: p.storage.filter fun kv => kv.1 != key
    writes := p.writes ++ [(key, value)] }

/-- The function `toggleTheme`. -/
def toggleTheme (p : ThemePage) : ThemePage :=
  let isDark := p.bodyClasses.contains "dark-theme"
  if isDark then
    let p := { p with bodyClasses := classRemove p.bodyClasses "dark-theme" }
    setItem p "theme" "light"
  else
    let p := { p with bodyClasses := classAdd p.bodyClasses "dark-theme" }
    setItem p "theme" "dark"

/-- The function `initializeTheme`. -/
def initializeTheme (p : ThemePage) : ThemePage :=
  let savedTheme := getItem p.storage "theme"
  if savedTheme = some "dark" then
    { p with bodyClasses := classAdd p.bodyClasses "dark-theme" }
  else p

/-- The page after `n` calls of `toggleTheme`. -/
def toggleThemes : Nat → ThemePage → ThemePage
  | 0, p => p
  | n + 1, p => toggleTheme (toggleThemes n p)

/-! ## Add to cart and the cart counter -/

/-- The submit button of an `.add-to-cart-form`. The field `innerHTML` is what
the getter returns: the serialisation of the button's children. -/
structure Button where
  innerHTML : String
  disabled : Bool
  classList : List String
deriving DecidableEq

/-- The assignment `button.innerHTML = markup`. The markup is parsed with the
button as context element and replaces its children, so the getter afterwards
returns `reparse markup`, the serialisation of what the parser made of it. -/
def Button.setInnerHTML (reparse : String → String) (b : Button) (markup : String) : Button :=
  { b with innerHTML := reparse markup }

/-- Newline normalisation of the input of the HTML parser: a carriage return
followed by a line feed, and a carriage return alone, both become a line feed. -/
def normalizeNewlines : List Char → List Char
  | [] => []
  | '\r' :: '\n' :: r => '\n' :: normalizeNewlines r
  | '\r' :: r => '\n' :: normalizeNewlines r
  | c :: r => c :: normalizeNewlines r

/-- Markup that is plain character data: no `<`, `&`, `>`, no-break space or
NUL. The parser reads it as one text node and the serialiser writes that text
back without an escape. -/
def isPlainText (markup : List Char) : Bool :=
  markup.all fun c =>
    !(c == '<' || c == '&' || c == '>' || c.toNat == 0xA0 || c.toNat == 0)

/-- A `reparse` function that is exact on plain character data, where parsing
only normalises the newlines, and returns other markup as it is, which is what
the parser and serialiser do with the four markup literals of the handlers. -/
def reparsePlain (markup : String) : String :=
  if isPlainText markup.data then ⟨normalizeNewlines markup.data⟩ else markup

/-- An alert element created by `showNotification`. `icon` and `message` are
the two interpolations of its `innerHTML` template, `transform` is the inline
style set by the entrance animation. -/
structure Notification where
  id : Nat
  className : String
  icon : String
  message : String
  transform : String
deriving DecidableEq

/-- The `#cart-count` element. -/
structure CartCount where
  textContent : String
  transform : String
deriving DecidableEq

/-- The callbacks passed to `setTimeout`, each with the variables it closes over. -/
inductive Callback where
  /-- Timer of the success branch of the cart listener. -/
  | resetAfterSuccess (originalText : String)
  /-- Timer of the `catch` branch of the cart listener. -/
  | resetAfterError (originalText : String)
  /-- Fallback timer of the submit listener of `initializeForms`. -/
  | formsReset (originalText : String)
  /-- Auto-remove timer of `showNotification`. -/
  | removeNotification (id : Nat)
  /-- Entrance animation timer of `showNotification`. -/
  | slideNotification (id : Nat)
  /-- Animation timer of `updateCartCount`. -/
  | cartCountScaleBack
deriving DecidableEq

/-- The part of the page used by `initializeCart`, `initializeForms`,
`updateCartCount` and `showNotification`. `notifications` are the alert
elements attached to the body, `cartCount` is the element `#cart-count` when
it exists, `console` collects the first argument of `console.log` and
`console.error`, `countRequests` counts the calls of `fetch('/api/cart/count')`
and `timers` holds the pending `setTimeout` calls with their delay. -/
structure Page where
  button : Button
  notifications : List Notification
  nextId : Nat
  cartCount : Option CartCount
  console : List String
  countRequests : Nat
  timers : List (Nat × Callback)
deriving DecidableEq

/-- How the `fetch` of the cart listener settles: the promise rejects, or it
resolves with a response whose `ok` flag tells a 2xx status. -/
inductive PostOutcome where
  | rejected
  | response (ok : Bool)
deriving DecidableEq

/-- What `response.json()` yields for the cart count: a rejection (the body is
not JSON), or an object whose `count` is absent or an integer. -/
inductive CountBody where
  | unreadable
  | data (count : Option Int)
deriving DecidableEq

/-- How the `fetch` of `updateCartCount` settles. -/
inductive CountOutcome where
  | rejected
  | response (ok : Bool) (body : CountBody)
deriving DecidableEq

/-- The function `showNotification(message, type, duration)`; callers that
omit `duration` pass its default `3000`. -/
def showNotification (p : Page) (message type : String) (duration : Nat) : Page :=
  let notification : Notification :=
    { id := p.nextId
      className := "alert alert-" ++ (if type == "error" then "danger" else "success") ++
        " alert-dismissible fade show position-fixed luxury-alert"
      icon := "fas fa-" ++ (if type == "error" then "exclamation-triangle" else "check-circle") ++
        " me-2"
      message := message
      transform := "" }
  { p with
    notifications := p.notifications ++ [notification]
    nextId := p.nextId + 1
    timers := p.timers ++
      [(duration, Callback.removeNotification notification.id),
       (10, Callback.slideNotification notification.id)] }

/-- The synchronous part of `updateCartCount`: the request is sent. -/
def updateCartCount (p : Page) : Page :=
  { p with countRequests := p.countRequests + 1 }

/-- The promise chain of `updateCartCount`, run when its `fetch` settles. The
chain never reads `response.ok`. -/
def cartCountSettled (p : Page) : CountOutcome → Page
  | .rejected => { p with console := p.console ++ ["Cart count update failed:"] }
  | .response _ .unreadable => { p with console := p.console ++ ["Cart count update failed:"] }
  | .response _ (.data count) =>
    match p.cartCount with
    | none => p
    | some _ =>
      let shown : Int := match count with
        | none => 0
        | some n => n
      { p with
        cartCount := some { textContent := toString shown, transform := "scale(1.2)" }
        timers := p.timers ++ [(200, Callback.cartCountScaleBack)] }

/-- The synchronous part of the submit listener registered by `initializeCart`:
returns the page and the `originalText` captured by the promise callbacks. -/
def cartSubmitListener (reparse : String → String) (p : Page) : Page × String :=
  let originalText := p.button.innerHTML
  let button := p.button.setInnerHTML reparse
    "<i class=\"fas fa-spinner fa-spin me-2\"></i>Adding..."
  let button := { button with disabled := true }
  ({ p with button := button }, originalText)

/-- The submit listener registered on every form by `initializeForms`; it runs
after the listener of `initializeCart`, which was registered first. -/
def formsSubmitListener (reparse : String → String) (p : Page) : Page :=
  if !p.button.disabled then
    let originalText := p.button.innerHTML
    let button := p.button.setInnerHTML reparse
      "<i class=\"fas fa-spinner fa-spin me-2\"></i>Processing..."
    let button := { button with disabled := true }
    { p with button := button, timers := p.timers ++ [(5000, Callback.formsReset originalText)] }
  else p

/-- The `.catch` callback of the cart listener. -/
def cartAddFailed (reparse : String → String) (originalText : String) (p : Page) : Page :=
  let p := { p with console := p.console ++ ["Error:"] }
  let button := p.button.setInnerHTML reparse "<i class=\"fas fa-times me-2\"></i>Error"
  let button := { button with classList := classAdd button.classList "btn-danger" }
  let p := { p with button := button }
  let p := showNotification p "Failed to add product to cart" "error" 3000
  { p with timers := p.timers ++ [(2000, Callback.resetAfterError originalText)] }

/-- The promise chain `.then(…).catch(…)` of the cart listener, run when the
`fetch` settles. A response that is not `ok` throws inside `.then` and is
handled by `.catch` like a rejection. -/
def cartAddSettled (reparse : String → String) (originalText : String) (p : Page) :
    PostOutcome → Page
  | .response true =>
    let button := p.button.setInnerHTML reparse "<i class=\"fas fa-check me-2\"></i>Added!"
    let button := { button with
      classList := classRemove (classAdd button.classList "btn-success") "btn-dark" }
    let p := { p with button := button }
    let p := updateCartCount p
    let p := showNotification p "Product added to cart!" "success" 3000
    { p with timers := p.timers ++ [(2000, Callback.resetAfterSuccess originalText)] }
  | .response false => cartAddFailed reparse originalText p
  | .rejected => cartAddFailed reparse originalText p

/-- A submit event on an `.add-to-cart-form` followed by the settlement of its
`fetch`: both submit listeners run, then the promise chain. -/
def cartSubmit (reparse : String → String) (p : Page) (outcome : PostOutcome) : Page :=
  let (p, originalText) := cartSubmitListener reparse p
  let p := formsSubmitListener reparse p
  cartAddSettled reparse originalText p outcome

/-- Running the callback of a timer. -/
def fire (reparse : String → String) (p : Page) : Callback → Page
  | .resetAfterSuccess originalText =>
    let button := p.button.setInnerHTML reparse originalText
    let button := { button with
      classList := classAdd (classRemove button.classList "btn-success") "btn-dark" }
    { p with button := { button with disabled := false } }
  | .resetAfterError originalText =>
    let button := p.button.setInnerHTML reparse originalText
    let button := { button with classList := classRemove button.classList "btn-danger" }
    { p with button := { button with disabled := false } }
  | .formsReset originalText =>
    let button := p.button.setInnerHTML reparse originalText
    { p with button := { button with disabled := false } }
  | .removeNotification id =>
    { p with notifications := p.notifications.filter fun n => n.id != id }
  | .slideNotification id =>
    { p with notifications := p.notifications.map fun n =>
        if n.id == id then { n with transform := "translateX(0)" } else n }
  | .cartCountScaleBack =>
    { p with cartCount := p.cartCount.map fun c => { c with transform := "scale(1)" } }

/-- The alert element `showNotification` creates for type `success`. -/
def successAlert (id : Nat) (message : String) : Notification :=
  { id := id
    className := "alert alert-success alert-dismissible fade show position-fixed luxury-alert"
    icon := "fas fa-check-circle me-2"
    message := message
    transform := "" }

/-- The alert element `showNotification` creates for type `error`. -/
def dangerAlert (id : Nat) (message : String) : Notification :=
  { id := id
    className := "alert alert-danger alert-dismissible fade show position-fixed luxury-alert"
    icon := "fas fa-exclamation-triangle me-2"
    message := message
    transform := "" }

/-! ## The shapes of valid values, in the words of the specification -/

/-- An email value as the specification describes a valid one: no white space,
exactly one `@`, something before the `@`, and after it a `.` that is neither
the first nor the last character of that part. -/
def EmailShape (v : List Char) : Prop :=
  (∀ c ∈ v, isWhiteSpace c = false) ∧ v.count '@' = 1 ∧
  ∃ l d, v = l ++ '@' :: d ∧ l ≠ [] ∧ ∃ i, 0 < i ∧ i + 1 < d.length ∧ d[i]? = some '.'

/-- A phone value as the specification describes a valid one, once the
separators are deleted: an optional leading `+`, then between 1 and 16 decimal
digits of which the first is not `0`. -/
def PhoneShape (s : List Char) : Prop :=
  ∃ ds, (s = ds ∨ s = '+' :: ds) ∧ 1 ≤ ds.length ∧ ds.length ≤ 16 ∧
    (∀ c ∈ ds, isDecimalDigit c = true) ∧ ds.head? ≠ some '0'

/-! ## Properties: the add-to-cart button -/

theorem addToCartClick_of_opened (f : CartForm) (h : f.opened = true) :
    addToCartClick f =
      showToast { f with submits := f.submits + 1 }
        (f.productName ++ " has been added to your cart") := by
  simp [addToCartClick, h]

theorem addToCartClick_of_closed (f : CartForm) (h : f.opened = false) :
    addToCartClick f = { f with qtyControlDisplay := "flex", opened := true } := by
  simp [addToCartClick, h]

theorem addToCartClick_opened (f : CartForm) : (addToCartClick f).opened = true := by
  cases h : f.opened
  · rw [addToCartClick_of_closed f h]
  · rw [addToCartClick_of_opened f h]; simpa [showToast] using h

theorem addToCartClick_productName (f : CartForm) :
    (addToCartClick f).productName = f.productName := by
  cases h : f.opened
  · rw [addToCartClick_of_closed f h]
  · rw [addToCartClick_of_opened f h]; simp [showToast]

theorem addToCartClicks_productName (n : Nat) (f : CartForm) :
    (addToCartClicks n f).productName = f.productName := by
  induction n with
  | zero => rfl
  | succ n ih => rw [addToCartClicks, addToCartClick_productName, ih]

theorem addToCartClicks_opened (n : Nat) (f : CartForm) (hn : 1 ≤ n) :
    (addToCartClicks n f).opened = true := by
  cases n with
  | zero => omega
  | succ n => rw [addToCartClicks]; exact addToCartClick_opened _

/-- C1: on a `.cart-form` whose flag `opened` is false, the `n`-th click on the
add-to-cart button (`n ≥ 1`) calls `form.submit()` exactly when `n ≥ 2`. The
first click only sets the display of the quantity control to `flex` and sets
the flag, leaving the submit count and the toast untouched; every later click
submits once and shows the toast with the message
`productName + " has been added to your cart"`. -/
theorem addToCart_nth_click (f : CartForm) (h : f.opened = false) (n : Nat) (hn : 1 ≤ n) :
    ((addToCartClicks n f).submits = (addToCartClicks (n - 1) f).submits + 1 ↔ 2 ≤ n) ∧
    (n = 1 → addToCartClicks n f = { f with qtyControlDisplay := "flex", opened := true }) ∧
    (2 ≤ n →
      (addToCartClicks n f).submits = (addToCartClicks (n - 1) f).submits + 1 ∧
      (addToCartClicks n f).toastLog = (addToCartClicks (n - 1) f).toastLog ++
        [f.productName ++ " has been added to your cart"] ∧
      (addToCartClicks n f).toastMessage = f.productName ++ " has been added to your cart" ∧
      "show" ∈ (addToCartClicks n f).toastClasses) := by
  obtain ⟨m, rfl⟩ : ∃ m, n = m + 1 := ⟨n - 1, by omega⟩
  simp only [Nat.add_sub_cancel]
  cases m with
  | zero =>
    have h1 : addToCartClicks 1 f = { f with qtyControlDisplay := "flex", opened := true } := by
      simp [addToCartClicks, addToCartClick_of_closed f h]
    refine ⟨?_, fun _ => h1, fun h2 => absurd h2 (by omega)⟩
    simp [addToCartClicks, addToCartClick_of_closed f h]
  | succ m =>
    have ho := addToCartClicks_opened (m + 1) f (by omega)
    have hp := addToCartClicks_productName (m + 1) f
    have hstep : addToCartClicks (m + 1 + 1) f =
        showToast { addToCartClicks (m + 1) f with
            submits := (addToCartClicks (m + 1) f).submits + 1 }
          ((addToCartClicks (m + 1) f).productName ++ " has been added to your cart") := by
      conv_lhs => rw [addToCartClicks]
      rw [addToCartClick_of_opened _ ho]
    refine ⟨⟨fun _ => by omega, fun _ => by simp [hstep, showToast]⟩, fun h1 => by omega,
      fun _ => ⟨by simp [hstep, showToast], by simp [hstep, showToast, hp],
        by simp [hstep, showToast, hp], ?_⟩⟩
    simp only [hstep, showToast, classAdd]
    split
    · assumption
    · simp

theorem addToCart_nth_click_witness :
    ((addToCartClicks 2 ⟨"Lamp", false, "none", "1", "1", 0, "", [], [], []⟩).submits =
        (addToCartClicks (2 - 1) ⟨"Lamp", false, "none", "1", "1", 0, "", [], [], []⟩).submits + 1
      ↔ 2 ≤ 2) ∧
    (addToCartClicks 2 ⟨"Lamp", false, "none", "1", "1", 0, "", [], [], []⟩).toastMessage =
      "Lamp has been added to your cart" :=
  have h := addToCart_nth_click ⟨"Lamp", false, "none", "1", "1", 0, "", [], [], []⟩ rfl 2
    (by decide)
  ⟨h.1, (h.2.2 (by decide)).2.2.1⟩

/-! ## Properties: the theme toggle -/

theorem mem_classAdd_self (cs : List String) (c : String) : c ∈ classAdd cs c := by
  unfold classAdd
  split
  · assumption
  · simp

theorem not_mem_classRemove_self (cs : List String) (c : String) : c ∉ classRemove cs c := by
  simp [classRemove]

theorem getItem_setItem (p : ThemePage) (k v : String) :
    getItem (setItem p k v).storage k = some v := by
  simp [getItem, setItem, List.find?]

theorem toggleTheme_of_dark (p : ThemePage) (h : "dark-theme" ∈ p.bodyClasses) :
    toggleTheme p =
      setItem { p with bodyClasses := classRemove p.bodyClasses "dark-theme" } "theme" "light" := by
  simp [toggleTheme, h]

theorem toggleTheme_of_light (p : ThemePage) (h : "dark-theme" ∉ p.bodyClasses) :
    toggleTheme p =
      setItem { p with bodyClasses := classAdd p.bodyClasses "dark-theme" } "theme" "dark" := by
  simp [toggleTheme, h]

theorem toggleTheme_stored (p : ThemePage) :
    (getItem (toggleTheme p).storage "theme" = some "dark" ∧
        "dark-theme" ∈ (toggleTheme p).bodyClasses) ∨
    (getItem (toggleTheme p).storage "theme" = some "light" ∧
        "dark-theme" ∉ (toggleTheme p).bodyClasses) := by
  by_cases h : "dark-theme" ∈ p.bodyClasses
  · right
    rw [toggleTheme_of_dark p h]
    exact ⟨getItem_setItem _ _ _, by simpa [setItem] using not_mem_classRemove_self _ _⟩
  · left
    rw [toggleTheme_of_light p h]
    exact ⟨getItem_setItem _ _ _, by simpa [setItem] using mem_classAdd_self _ _⟩

theorem toggleTheme_writes (p : ThemePage) :
    (toggleTheme p).writes = p.writes ++ [("theme", "dark")] ∨
    (toggleTheme p).writes = p.writes ++ [("theme", "light")] := by
  by_cases h : "dark-theme" ∈ p.bodyClasses
  · right; rw [toggleTheme_of_dark p h]; simp [setItem]
  · left; rw [toggleTheme_of_light p h]; simp [setItem]

theorem toggleThemes_writes (n : Nat) (p : ThemePage) :
    ∃ ws, (toggleThemes n p).writes = p.writes ++ ws ∧ ws.length = n ∧
      ∀ w ∈ ws, w.1 = "theme" ∧ (w.2 = "dark" ∨ w.2 = "light") := by
  induction n with
  | zero => exact ⟨[], by simp [toggleThemes]⟩
  | succ n ih =>
    obtain ⟨ws, hws, hlen, hall⟩ := ih
    rcases toggleTheme_writes (toggleThemes n p) with h | h
    · refine ⟨ws ++ [("theme", "dark")], ?_, by simp [hlen], ?_⟩
      · rw [toggleThemes, h, hws, List.append_assoc]
      · intro w hw
        rcases List.mem_append.1 hw with hw | hw
        · exact hall w hw
        · simp only [List.mem_singleton] at hw; subst hw; simp
    · refine ⟨ws ++ [("theme", "light")], ?_, by simp [hlen], ?_⟩
      · rw [toggleThemes, h, hws, List.append_assoc]
      · intro w hw
        rcases List.mem_append.1 hw with hw | hw
        · exact hall w hw
        · simp only [List.mem_singleton] at hw; subst hw; simp

theorem initializeTheme_mem (fresh : List String) (hfresh : "dark-theme" ∉ fresh)
    (storage writes : List (String × String)) :
    "dark-theme" ∈ (initializeTheme ⟨fresh, storage, writes⟩).bodyClasses ↔
      getItem storage "theme" = some "dark" := by
  unfold initializeTheme
  by_cases h : getItem storage "theme" = some "dark"
  · simp only [h, if_true, iff_true]
    exact mem_classAdd_self _ _
  · simp [h, hfresh]

/-- C4: from every starting state, after every non-empty sequence of
`toggleTheme` calls, each value written to `localStorage` during the calls was
written under the key `theme` and is `dark` or `light`, one write per call; the
stored theme is `dark` exactly when the body has class `dark-theme` and `light`
exactly when it has not; and `initializeTheme` run on a fresh page (a body
without `dark-theme`, the same storage) gives the body class `dark-theme`
exactly when the last toggle left it on. -/
theorem toggleTheme_storage_invariant (p : ThemePage) (fresh : List String)
    (hfresh : "dark-theme" ∉ fresh) (n : Nat) (hn : 1 ≤ n) :
    (∃ ws, (toggleThemes n p).writes = p.writes ++ ws ∧ ws.length = n ∧
      ∀ w ∈ ws, w.1 = "theme" ∧ (w.2 = "dark" ∨ w.2 = "light")) ∧
    (getItem (toggleThemes n p).storage "theme" = some "dark" ↔
      "dark-theme" ∈ (toggleThemes n p).bodyClasses) ∧
    (getItem (toggleThemes n p).storage "theme" = some "light" ↔
      "dark-theme" ∉ (toggleThemes n p).bodyClasses) ∧
    ("dark-theme" ∈ (initializeTheme ⟨fresh, (toggleThemes n p).storage, []⟩).bodyClasses ↔
      "dark-theme" ∈ (toggleThemes n p).bodyClasses) := by
  obtain ⟨m, rfl⟩ : ∃ m, n = m + 1 := ⟨n - 1, by omega⟩
  have key := toggleTheme_stored (toggleThemes m p)
  have hd : getItem (toggleThemes (m + 1) p).storage "theme" = some "dark" ↔
      "dark-theme" ∈ (toggleThemes (m + 1) p).bodyClasses := by
    rw [toggleThemes]
    rcases key with ⟨h1, h2⟩ | ⟨h1, h2⟩
    · simp [h1, h2]
    · simp [h1, h2]
  refine ⟨toggleThemes_writes _ p, hd, ?_, ?_⟩
  · rw [toggleThemes]
    rcases key with ⟨h1, h2⟩ | ⟨h1, h2⟩
    · simp [h1, h2]
    · simp [h1, h2]
  · rw [initializeTheme_mem fresh hfresh, hd]

theorem toggleTheme_storage_invariant_witness :
    getItem (toggleThemes 3 ⟨["page"], [("theme", "light")], []⟩).storage "theme" = some "dark" ∧
    "dark-theme" ∈ (toggleThemes 3 ⟨["page"], [("theme", "light")], []⟩).bodyClasses :=
  have h := toggleTheme_storage_invariant ⟨["page"], [("theme", "light")], []⟩ ["page"]
    (by decide) 3 (by decide)
  ⟨by decide, h.2.1.1 (by decide)⟩

/-! ## Properties: add to cart and the cart counter -/

theorem formsSubmitListener_after_cart (reparse : String → String) (p : Page) :
    formsSubmitListener reparse (cartSubmitListener reparse p).1 =
      (cartSubmitListener reparse p).1 := by
  simp [formsSubmitListener, cartSubmitListener]

theorem cartSubmit_eq (reparse : String → String) (p : Page) (outcome : PostOutcome) :
    cartSubmit reparse p outcome =
      cartAddSettled reparse p.button.innerHTML (cartSubmitListener reparse p).1 outcome := by
  have h := formsSubmitListener_after_cart reparse p
  simp only [cartSubmit]
  rw [h]
  rfl

theorem showNotification_error (p : Page) (message : String) (duration : Nat) :
    showNotification p message "error" duration =
      { p with
        notifications := p.notifications ++ [dangerAlert p.nextId message]
        nextId := p.nextId + 1
        timers := p.timers ++ [(duration, Callback.removeNotification p.nextId),
          (10, Callback.slideNotification p.nextId)] } := by
  simp [showNotification, dangerAlert]

theorem showNotification_success (p : Page) (message : String) (duration : Nat) :
    showNotification p message "success" duration =
      { p with
        notifications := p.notifications ++ [successAlert p.nextId message]
        nextId := p.nextId + 1
        timers := p.timers ++ [(duration, Callback.removeNotification p.nextId),
          (10, Callback.slideNotification p.nextId)] } := by
  simp [showNotification, successAlert]

theorem cartAddFailed_effect (reparse : String → String) (originalText : String) (p : Page) :
    (cartAddFailed reparse originalText p).notifications =
        p.notifications ++ [dangerAlert p.nextId "Failed to add product to cart"] ∧
    (cartAddFailed reparse originalText p).countRequests = p.countRequests ∧
    (cartAddFailed reparse originalText p).timers = p.timers ++
      [(3000, Callback.removeNotification p.nextId), (10, Callback.slideNotification p.nextId),
       (2000, Callback.resetAfterError originalText)] := by
  simp [cartAddFailed, showNotification_error, Button.setInnerHTML]

theorem cartAddSucceeded_effect (reparse : String → String) (originalText : String)
    (p : Page) :
    (cartAddSettled reparse originalText p (.response true)).notifications =
        p.notifications ++ [successAlert p.nextId "Product added to cart!"] ∧
    (cartAddSettled reparse originalText p (.response true)).countRequests =
        p.countRequests + 1 ∧
    (cartAddSettled reparse originalText p (.response true)).timers = p.timers ++
      [(3000, Callback.removeNotification p.nextId), (10, Callback.slideNotification p.nextId),
       (2000, Callback.resetAfterSuccess originalText)] := by
  simp [cartAddSettled, showNotification_success, updateCartCount, Button.setInnerHTML]

/-- C3, as the code behaves: a submit of an `.add-to-cart-form` is classified
by the settlement of its `fetch` alone. With a response that is `ok`, the
success notification `Product added to cart!` is shown and `updateCartCount`
is called once; with a response that is not `ok` or a rejected `fetch`, the
error notification `Failed to add product to cart` is shown and
`updateCartCount` is not called. In every case exactly one timer of 2000 ms is
added; whatever the page looks like when it fires, it assigns to the button's
`innerHTML` the markup captured when the submit began and enables the button,
so that afterwards `innerHTML` reads as that markup re-parsed, and equals the
captured markup whenever the markup re-parses to itself. -/
theorem cartSubmit_classified (reparse : String → String) (p : Page) :
    ((cartSubmit reparse p (.response true)).notifications =
        p.notifications ++ [successAlert p.nextId "Product added to cart!"] ∧
      (cartSubmit reparse p (.response true)).countRequests = p.countRequests + 1 ∧
      (cartSubmit reparse p (.response true)).timers = p.timers ++
        [(3000, Callback.removeNotification p.nextId), (10, Callback.slideNotification p.nextId),
         (2000, Callback.resetAfterSuccess p.button.innerHTML)]) ∧
    ((cartSubmit reparse p (.response false)).notifications =
        p.notifications ++ [dangerAlert p.nextId "Failed to add product to cart"] ∧
      (cartSubmit reparse p (.response false)).countRequests = p.countRequests ∧
      (cartSubmit reparse p (.response false)).timers = p.timers ++
        [(3000, Callback.removeNotification p.nextId), (10, Callback.slideNotification p.nextId),
         (2000, Callback.resetAfterError p.button.innerHTML)]) ∧
    ((cartSubmit reparse p .rejected).notifications =
        p.notifications ++ [dangerAlert p.nextId "Failed to add product to cart"] ∧
      (cartSubmit reparse p .rejected).countRequests = p.countRequests ∧
      (cartSubmit reparse p .rejected).timers = p.timers ++
        [(3000, Callback.removeNotification p.nextId), (10, Callback.slideNotification p.nextId),
         (2000, Callback.resetAfterError p.button.innerHTML)]) ∧
    (∀ q : Page,
      (fire reparse q (.resetAfterSuccess p.button.innerHTML)).button.innerHTML =
        reparse p.button.innerHTML ∧
      (fire reparse q (.resetAfterSuccess p.button.innerHTML)).button.disabled = false ∧
      (fire reparse q (.resetAfterError p.button.innerHTML)).button.innerHTML =
        reparse p.button.innerHTML ∧
      (fire reparse q (.resetAfterError p.button.innerHTML)).button.disabled = false) ∧
    (reparse p.button.innerHTML = p.button.innerHTML →
      ∀ q : Page,
        (fire reparse q (.resetAfterSuccess p.button.innerHTML)).button.innerHTML =
          p.button.innerHTML ∧
        (fire reparse q (.resetAfterError p.button.innerHTML)).button.innerHTML =
          p.button.innerHTML) := by
  refine ⟨?_, ?_, ?_, fun q => by simp [fire, Button.setInnerHTML], fun h q => ?_⟩
  · rw [cartSubmit_eq]
    exact cartAddSucceeded_effect _ _ _
  · rw [cartSubmit_eq]
    exact cartAddFailed_effect _ _ _
  · rw [cartSubmit_eq]
    exact cartAddFailed_effect _ _ _
  · simp only [fire, Button.setInnerHTML, h, and_self]

theorem cartSubmit_classified_witness :
    (fire reparsePlain
      (cartSubmit reparsePlain
        ⟨⟨"Add to cart", false, ["btn", "btn-dark"]⟩, [], 0, none, [], 0, []⟩ (.response true))
      (.resetAfterSuccess "Add to cart")).button = ⟨"Add to cart", false, ["btn", "btn-dark"]⟩ ∧
    ∀ q : Page,
      (fire reparsePlain q (.resetAfterSuccess "Add to cart")).button.innerHTML = "Add to cart" ∧
      (fire reparsePlain q (.resetAfterError "Add to cart")).button.innerHTML = "Add to cart" :=
  ⟨by decide,
   (cartSubmit_classified reparsePlain
      ⟨⟨"Add to cart", false, ["btn", "btn-dark"]⟩, [], 0, none, [], 0, []⟩).2.2.2.2
    (by decide)⟩

/-- C3 fails as stated for the label after the timer: a button whose content
ends in a carriage return reads `Add` followed by a carriage return when the
submit begins; the 2000 ms timer of the submit assigns that markup back, the
parser turns the carriage return into a line feed, and the button then reads
`Add` followed by a line feed, which is not what it read when the submit began. -/
theorem cartSubmit_reset_reparsed :
    (cartSubmit reparsePlain ⟨⟨"Add\r", false, ["btn-dark"]⟩, [], 0, none, [], 0, []⟩
      (.response true)).timers.getLast? = some (2000, Callback.resetAfterSuccess "Add\r") ∧
    (fire reparsePlain
      (cartSubmit reparsePlain ⟨⟨"Add\r", false, ["btn-dark"]⟩, [], 0, none, [], 0, []⟩
        (.response true))
      (.resetAfterSuccess "Add\r")).button.innerHTML = "Add\n" ∧
    (cartSubmit reparsePlain ⟨⟨"Add\r", false, ["btn-dark"]⟩, [], 0, none, [], 0, []⟩
      .rejected).timers.getLast? = some (2000, Callback.resetAfterError "Add\r") ∧
    (fire reparsePlain
      (cartSubmit reparsePlain ⟨⟨"Add\r", false, ["btn-dark"]⟩, [], 0, none, [], 0, []⟩
        .rejected)
      (.resetAfterError "Add\r")).button.innerHTML = "Add\n" ∧
    "Add\n" ≠ "Add\r" := by
  decide

/-- C2, as the code behaves: a failed cart-add request (a rejected `fetch` or a
response that is not `ok`) always adds the error alert `Failed to add product
to cart` to the page. A cart-count request whose `fetch` rejects or whose body
cannot be read is caught as well, but the only effect is the line
`Cart count update failed:` on the console: the page, and so its list of
notifications, is unchanged. -/
theorem failures_caught (reparse : String → String) (p : Page) (originalText : String) :
    (cartAddSettled reparse originalText p .rejected).notifications =
      p.notifications ++ [dangerAlert p.nextId "Failed to add product to cart"] ∧
    (cartAddSettled reparse originalText p (.response false)).notifications =
      p.notifications ++ [dangerAlert p.nextId "Failed to add product to cart"] ∧
    cartCountSettled p .rejected =
      { p with console := p.console ++ ["Cart count update failed:"] } ∧
    (∀ ok, cartCountSettled p (.response ok .unreadable) =
      { p with console := p.console ++ ["Cart count update failed:"] }) :=
  ⟨(cartAddFailed_effect _ _ _).1, (cartAddFailed_effect _ _ _).1, rfl, fun _ => rfl⟩

/-- C2 fails for the cart-count request: when its `fetch` rejects, and when the
server answers with a status that is not 2xx, no notification is on the page
afterwards. -/
theorem cartCount_failure_shows_nothing :
    (cartCountSettled ⟨⟨"Add", false, []⟩, [], 0, some ⟨"2", ""⟩, [], 1, []⟩
      .rejected).notifications = [] ∧
    (cartCountSettled ⟨⟨"Add", false, []⟩, [], 0, some ⟨"2", ""⟩, [], 1, []⟩
      (.response false .unreadable)).notifications = [] ∧
    (cartCountSettled ⟨⟨"Add", false, []⟩, [], 0, some ⟨"2", ""⟩, [], 1, []⟩
      (.response false (.data (some 5)))).notifications = [] := by
  decide

/-! ## Properties: `validateInput` -/

theorem validateInput_fst (input : Input) :
    (validateInput input).1 = (validateChecks input).1 := by
  unfold validateInput
  rcases validateChecks input with ⟨b, m⟩
  cases b <;> simp

theorem validateInput_feedback_of_invalid (input : Input)
    (h : (validateChecks input).1 = false) :
    (validateInput input).2.feedback = input.feedback.tail ++ [(validateChecks input).2] := by
  unfold validateInput
  rcases hc : validateChecks input with ⟨b, m⟩
  rw [hc] at h
  simp only at h
  subst h
  simp [showErrorMessage, removeErrorMessage]

theorem validateChecks_password (input : Input) (ht : input.type = "password")
    (hv : (jsTrim input.value).data ≠ []) :
    validateChecks input =
      if jsLength (jsTrim input.value) < 6 then
        (false, "Password must be at least 6 characters long") else (true, "") := by
  have hne : (jsTrim input.value).data.isEmpty = false := by
    cases h : (jsTrim input.value).data with
    | nil => exact absurd h hv
    | cons _ _ => rfl
  unfold validateChecks
  simp only [ht, hne]
  simp

theorem validateChecks_email (input : Input) (ht : input.type = "email")
    (hv : (jsTrim input.value).data ≠ []) :
    validateChecks input =
      if regexTest emailRegex (jsTrim input.value).data then (true, "")
      else (false, "Please enter a valid email address") := by
  have hne : (jsTrim input.value).data.isEmpty = false := by
    cases h : (jsTrim input.value).data with
    | nil => exact absurd h hv
    | cons _ _ => rfl
  unfold validateChecks
  simp only [ht, hne]
  by_cases h : regexTest emailRegex (jsTrim input.value).data = true <;> simp [h]

theorem validateChecks_tel (input : Input) (ht : input.type = "tel")
    (hv : (jsTrim input.value).data ≠ []) :
    validateChecks input =
      if regexTest phoneRegex
          ((jsTrim input.value).data.filter fun c => !isPhoneSeparator c) then (true, "")
      else (false, "Please enter a valid phone number") := by
  have hne : (jsTrim input.value).data.isEmpty = false := by
    cases h : (jsTrim input.value).data with
    | nil => exact absurd h hv
    | cons _ _ => rfl
  unfold validateChecks
  simp only [ht, hne]
  by_cases h : regexTest phoneRegex
      ((jsTrim input.value).data.filter fun c => !isPhoneSeparator c) = true <;> simp [h]

/-- C6, as the code behaves: for an input of type `password` whose trimmed
value is not empty, `validateInput` returns true exactly when the trimmed value
has length at least 6; when it returns false, the message appended after the
input is `Password must be at least 6 characters long`. -/
theorem validateInput_password (input : Input) (ht : input.type = "password")
    (hv : (jsTrim input.value).data ≠ []) :
    ((validateInput input).1 = true ↔ 6 ≤ jsLength (jsTrim input.value)) ∧
    ((validateInput input).1 = false →
      (validateInput input).2.feedback =
        input.feedback.tail ++ ["Password must be at least 6 characters long"]) := by
  have hc := validateChecks_password input ht hv
  constructor
  · rw [validateInput_fst, hc]
    by_cases h : jsLength (jsTrim input.value) < 6
    · simp [h]
    · simp [h]; omega
  · intro hf
    rw [validateInput_fst] at hf
    rw [validateInput_feedback_of_invalid input hf, hc]
    rw [hc] at hf
    by_cases h : jsLength (jsTrim input.value) < 6
    · simp [h]
    · simp [h] at hf

theorem validateInput_password_witness :
    ((validateInput ⟨" secret ", "password", true, [], ["old"]⟩).1 = true ↔
      6 ≤ jsLength (jsTrim " secret ")) ∧
    ((validateInput ⟨" abc ", "password", true, [], ["old"]⟩).1 = false →
      (validateInput ⟨" abc ", "password", true, [], ["old"]⟩).2.feedback =
        [] ++ ["Password must be at least 6 characters long"]) :=
  ⟨(validateInput_password ⟨" secret ", "password", true, [], ["old"]⟩ rfl (by decide)).1,
   (validateInput_password ⟨" abc ", "password", true, [], ["old"]⟩ rfl (by decide)).2⟩

/-- C6 fails as stated: the password `abcde ` (five letters and a space) is not
empty and is 6 characters long, yet `validateInput` returns false, because the
value is trimmed before its length is taken. -/
theorem validateInput_password_untrimmed :
    (⟨"abcde ", "password", true, [], []⟩ : Input).value ≠ "" ∧
    6 ≤ jsLength (⟨"abcde ", "password", true, [], []⟩ : Input).value ∧
    (validateInput ⟨"abcde ", "password", true, [], []⟩).1 = false := by
  decide

/-! ### The regular expressions -/

theorem regexTest_nil (s : List Char) : regexTest [] s = true ↔ s = [] := by
  cases s <;> simp [regexTest]

theorem regexTest_cons (a : Atom) (rest : List Atom) (s : List Char) :
    regexTest (a :: rest) s = true ↔
      ∃ s₁ s₂, s = s₁ ++ s₂ ∧ a.allows s₁.length = true ∧ (∀ c ∈ s₁, a.cls c = true) ∧
        regexTest rest s₂ = true := by
  simp only [regexTest, List.any_eq_true, List.mem_range, Bool.and_eq_true, List.all_eq_true]
  constructor
  · rintro ⟨k, hk, ⟨hal, hcls⟩, hrest⟩
    refine ⟨s.take k, s.drop k, (List.take_append_drop k s).symm, ?_, hcls, hrest⟩
    rw [List.length_take, Nat.min_eq_left (by omega)]
    exact hal
  · rintro ⟨s₁, s₂, rfl, hal, hcls, hrest⟩
    refine ⟨s₁.length, by simp; omega, ⟨hal, ?_⟩, ?_⟩
    · rw [List.take_left]; exact hcls
    · rw [List.drop_left]; exact hrest

theorem allows_plus (cls : Char → Bool) (k : Nat) :
    (⟨cls, 1, none⟩ : Atom).allows k = true ↔ 1 ≤ k := by
  simp [Atom.allows]

theorem allows_range (cls : Char → Bool) (lo hi k : Nat) :
    (⟨cls, lo, some hi⟩ : Atom).allows k = true ↔ lo ≤ k ∧ k ≤ hi := by
  simp [Atom.allows]

theorem single_of_allows_one (cls : Char → Bool) (s : List Char)
    (h : (⟨cls, 1, some 1⟩ : Atom).allows s.length = true) : ∃ c, s = [c] := by
  rw [allows_range] at h
  exact List.length_eq_one.1 (by omega)

theorem regexTest_email (v : List Char) :
    regexTest emailRegex v = true ↔
      ∃ l d₁ d₂, v = l ++ '@' :: (d₁ ++ '.' :: d₂) ∧ l ≠ [] ∧ d₁ ≠ [] ∧ d₂ ≠ [] ∧
        (∀ c ∈ l, notSpaceAt c = true) ∧ (∀ c ∈ d₁, notSpaceAt c = true) ∧
        (∀ c ∈ d₂, notSpaceAt c = true) := by
  unfold emailRegex
  constructor
  · intro h
    obtain ⟨l, r₁, rfl, hl, hlc, h⟩ := (regexTest_cons _ _ _).1 h
    obtain ⟨a, r₂, rfl, ha, hac, h⟩ := (regexTest_cons _ _ _).1 h
    obtain ⟨d₁, r₃, rfl, hd₁, hd₁c, h⟩ := (regexTest_cons _ _ _).1 h
    obtain ⟨b, r₄, rfl, hb, hbc, h⟩ := (regexTest_cons _ _ _).1 h
    obtain ⟨d₂, r₅, rfl, hd₂, hd₂c, h⟩ := (regexTest_cons _ _ _).1 h
    rw [regexTest_nil] at h
    subst h
    obtain ⟨x, rfl⟩ := single_of_allows_one _ _ ha
    obtain ⟨y, rfl⟩ := single_of_allows_one _ _ hb
    have hx : x = '@' := by simpa using hac x (by simp)
    have hy : y = '.' := by simpa using hbc y (by simp)
    subst hx hy
    rw [allows_plus] at hl hd₁ hd₂
    refine ⟨l, d₁, d₂, by simp, ?_, ?_, ?_, hlc, hd₁c, hd₂c⟩
    · rintro rfl; simp at hl
    · rintro rfl; simp at hd₁
    · rintro rfl; simp at hd₂
  · rintro ⟨l, d₁, d₂, rfl, hl, hd₁, hd₂, hlc, hd₁c, hd₂c⟩
    have pos : ∀ t : List Char, t ≠ [] → 1 ≤ t.length := fun t ht =>
      Nat.succ_le_of_lt (List.length_pos.2 ht)
    refine (regexTest_cons _ _ _).2 ⟨l, '@' :: (d₁ ++ '.' :: d₂), rfl,
      (allows_plus _ _).2 (pos l hl), hlc, ?_⟩
    refine (regexTest_cons _ _ _).2 ⟨['@'], d₁ ++ '.' :: d₂, rfl, by decide, by simp, ?_⟩
    refine (regexTest_cons _ _ _).2 ⟨d₁, '.' :: d₂, rfl, (allows_plus _ _).2 (pos d₁ hd₁), hd₁c, ?_⟩
    refine (regexTest_cons _ _ _).2 ⟨['.'], d₂, rfl, by decide, by simp, ?_⟩
    refine (regexTest_cons _ _ _).2 ⟨d₂, [], by simp, (allows_plus _ _).2 (pos d₂ hd₂), hd₂c, ?_⟩
    exact (regexTest_nil _).2 rfl

theorem notSpaceAt_iff (c : Char) :
    notSpaceAt c = true ↔ isWhiteSpace c = false ∧ c ≠ '@' := by
  simp [notSpaceAt]

theorem regexTest_email_iff_shape (v : List Char) :
    regexTest emailRegex v = true ↔ EmailShape v := by
  rw [regexTest_email]
  constructor
  · rintro ⟨l, d₁, d₂, rfl, hl, hd₁, hd₂, hlc, hd₁c, hd₂c⟩
    have hl' := fun c hc => (notSpaceAt_iff c).1 (hlc c hc)
    have hd₁' := fun c hc => (notSpaceAt_iff c).1 (hd₁c c hc)
    have hd₂' := fun c hc => (notSpaceAt_iff c).1 (hd₂c c hc)
    refine ⟨?_, ?_, l, d₁ ++ '.' :: d₂, rfl, hl, d₁.length, List.length_pos.2 hd₁, ?_, ?_⟩
    · intro c hc
      simp only [List.mem_append, List.mem_cons] at hc
      rcases hc with hc | rfl | hc | rfl | hc
      · exact (hl' c hc).1
      · decide
      · exact (hd₁' c hc).1
      · decide
      · exact (hd₂' c hc).1
    · have h1 : l.count '@' = 0 := List.count_eq_zero.2 fun hc => (hl' _ hc).2 rfl
      have h2 : d₁.count '@' = 0 := List.count_eq_zero.2 fun hc => (hd₁' _ hc).2 rfl
      have h3 : d₂.count '@' = 0 := List.count_eq_zero.2 fun hc => (hd₂' _ hc).2 rfl
      simp [List.count_append, List.count_cons, h1, h2, h3]
    · have := List.length_pos.2 hd₂
      simp only [List.length_append, List.length_cons]
      omega
    · rw [List.getElem?_append_right (Nat.le_refl _)]
      simp
  · rintro ⟨hws, hcount, l, d, rfl, hl, i, hi0, hi1, hdot⟩
    have hc : l.count '@' = 0 ∧ d.count '@' = 0 := by
      simp only [List.count_append, List.count_cons, beq_self_eq_true, if_true] at hcount
      omega
    have hlat : '@' ∉ l := List.count_eq_zero.1 hc.1
    have hdat : '@' ∉ d := List.count_eq_zero.1 hc.2
    obtain ⟨hlt, hget⟩ := List.getElem?_eq_some.1 hdot
    have hsplit : d = d.take i ++ '.' :: d.drop (i + 1) := by
      conv_lhs => rw [← List.take_append_drop i d, List.drop_eq_getElem_cons hlt, hget]
    have hmem : ∀ c ∈ d, notSpaceAt c = true := fun c hc =>
      (notSpaceAt_iff c).2 ⟨hws c (by simp [hc]), fun h => hdat (h ▸ hc)⟩
    refine ⟨l, d.take i, d.drop (i + 1), by rw [← hsplit], hl, ?_, ?_, ?_, ?_, ?_⟩
    · intro h
      have := congrArg List.length h
      simp only [List.length_take, List.length_nil] at this
      omega
    · intro h
      have := congrArg List.length h
      simp only [List.length_drop, List.length_nil] at this
      omega
    · exact fun c hc => (notSpaceAt_iff c).2 ⟨hws c (by simp [hc]), fun h => hlat (h ▸ hc)⟩
    · exact fun c hc => hmem c (List.mem_of_mem_take hc)
    · exact fun c hc => hmem c (List.mem_of_mem_drop hc)

/-- C7: for an input of type `email` whose trimmed value `v` is not empty,
`validateInput` returns true exactly when `v` has no white space character,
exactly one `@`, a non-empty part before the `@` and, in the part after it, a
`.` that is neither its first nor its last character; otherwise it returns
false and the message appended after the input is
`Please enter a valid email address`. -/
theorem validateInput_email (input : Input) (ht : input.type = "email")
    (hv : (jsTrim input.value).data ≠ []) :
    ((validateInput input).1 = true ↔ EmailShape (jsTrim input.value).data) ∧
    (¬ EmailShape (jsTrim input.value).data →
      (validateInput input).1 = false ∧
      (validateInput input).2.feedback =
        input.feedback.tail ++ ["Please enter a valid email address"]) := by
  have hc := validateChecks_email input ht hv
  have hiff : (validateInput input).1 = true ↔ EmailShape (jsTrim input.value).data := by
    rw [validateInput_fst, hc, ← regexTest_email_iff_shape]
    by_cases h : regexTest emailRegex (jsTrim input.value).data = true <;> simp [h]
  refine ⟨hiff, fun hn => ?_⟩
  have hr : regexTest emailRegex (jsTrim input.value).data = false := by
    rw [← regexTest_email_iff_shape] at hn
    simpa using hn
  have hf : (validateChecks input).1 = false := by rw [hc]; simp [hr]
  refine ⟨by rw [validateInput_fst]; exact hf, ?_⟩
  rw [validateInput_feedback_of_invalid input hf, hc]
  simp [hr]

theorem validateInput_email_witness :
    EmailShape (jsTrim " ann@shop.example ").data ∧
    ((validateInput ⟨" ann@shop.example ", "email", true, [], []⟩).1 = true ↔
      EmailShape (jsTrim " ann@shop.example ").data) :=
  have h := validateInput_email ⟨" ann@shop.example ", "email", true, [], []⟩ rfl (by decide)
  ⟨h.1.1 (by decide), h.1⟩

theorem char_eq_of_toNat_eq {c d : Char} (h : c.toNat = d.toNat) : c = d := by
  rw [← Char.ofNat_toNat c, ← Char.ofNat_toNat d, h]

theorem isNonZeroDigit_iff (c : Char) :
    isNonZeroDigit c = true ↔ isDecimalDigit c = true ∧ c ≠ '0' := by
  have h0 : ('0' : Char).toNat = 48 := rfl
  have h1 : ('1' : Char).toNat = 49 := rfl
  have hne : c ≠ '0' ↔ c.toNat ≠ 48 :=
    ⟨fun h hv => h (char_eq_of_toNat_eq (hv.trans h0.symm)), fun h hc => h (hc ▸ h0)⟩
  simp only [isNonZeroDigit, isDecimalDigit, Bool.and_eq_true, decide_eq_true_eq, hne, h0, h1]
  omega

theorem regexTest_phone (s : List Char) :
    regexTest phoneRegex s = true ↔
      ∃ p c ds, s = p ++ c :: ds ∧ (p = [] ∨ p = ['+']) ∧ isNonZeroDigit c = true ∧
        ds.length ≤ 15 ∧ ∀ x ∈ ds, isDecimalDigit x = true := by
  unfold phoneRegex
  constructor
  · intro h
    obtain ⟨p, r₁, rfl, hp, hpc, h⟩ := (regexTest_cons _ _ _).1 h
    obtain ⟨a, r₂, rfl, ha, hac, h⟩ := (regexTest_cons _ _ _).1 h
    obtain ⟨ds, r₃, rfl, hds, hdsc, h⟩ := (regexTest_cons _ _ _).1 h
    rw [regexTest_nil] at h
    subst h
    obtain ⟨c, rfl⟩ := single_of_allows_one _ _ ha
    rw [allows_range] at hp hds
    refine ⟨p, c, ds, by simp, ?_, hac c (by simp), hds.2, hdsc⟩
    match p, hp, hpc with
    | [], _, _ => exact Or.inl rfl
    | [x], _, hpc =>
      have hx : x = '+' := by simpa using hpc x (by simp)
      exact Or.inr (by rw [hx])
    | _ :: _ :: _, hp, _ => simp at hp
  · rintro ⟨p, c, ds, rfl, hp, hc, hlen, hds⟩
    refine (regexTest_cons _ _ _).2 ⟨p, c :: ds, rfl, ?_, ?_, ?_⟩
    · rcases hp with rfl | rfl <;> decide
    · rcases hp with rfl | rfl <;> simp
    refine (regexTest_cons _ _ _).2 ⟨[c], ds, rfl, by simp [Atom.allows], by simpa using hc, ?_⟩
    refine (regexTest_cons _ _ _).2 ⟨ds, [], by simp, (allows_range _ _ _ _).2 ⟨by omega, hlen⟩,
      hds, ?_⟩
    exact (regexTest_nil _).2 rfl

theorem regexTest_phone_iff_shape (s : List Char) :
    regexTest phoneRegex s = true ↔ PhoneShape s := by
  rw [regexTest_phone]
  constructor
  · rintro ⟨p, c, ds, rfl, hp, hc, hlen, hds⟩
    obtain ⟨hcd, hc0⟩ := (isNonZeroDigit_iff c).1 hc
    refine ⟨c :: ds, ?_, by simp, by simp; omega, ?_, by simpa using hc0⟩
    · rcases hp with rfl | rfl
      · exact Or.inl rfl
      · exact Or.inr rfl
    · intro x hx
      rcases List.mem_cons.1 hx with rfl | hx
      · exact hcd
      · exact hds x hx
  · rintro ⟨ds, hs, h1, h16, hall, hhead⟩
    match ds, h1, h16, hall, hhead with
    | c :: ds, _, h16, hall, hhead =>
      have hc : isNonZeroDigit c = true :=
        (isNonZeroDigit_iff c).2 ⟨hall c (by simp), by simpa using hhead⟩
      have hlen : ds.length ≤ 15 := by simp at h16; omega
      have hds : ∀ x ∈ ds, isDecimalDigit x = true := fun x hx => hall x (by simp [hx])
      rcases hs with rfl | rfl
      · exact ⟨[], c, ds, rfl, Or.inl rfl, hc, hlen, hds⟩
      · exact ⟨['+'], c, ds, rfl, Or.inr rfl, hc, hlen, hds⟩

/-- C8: for an input of type `tel` whose trimmed value `v` is not empty,
`validateInput` returns true exactly when `v` with every white space character,
`-`, `(` and `)` deleted is an optional leading `+` followed by between 1 and
16 decimal digits of which the first is not `0`; otherwise it returns false and
the message appended after the input is `Please enter a valid phone number`. -/
theorem validateInput_tel (input : Input) (ht : input.type = "tel")
    (hv : (jsTrim input.value).data ≠ []) :
    ((validateInput input).1 = true ↔
      PhoneShape ((jsTrim input.value).data.filter fun c => !isPhoneSeparator c)) ∧
    (¬ PhoneShape ((jsTrim input.value).data.filter fun c => !isPhoneSeparator c) →
      (validateInput input).1 = false ∧
      (validateInput input).2.feedback =
        input.feedback.tail ++ ["Please enter a valid phone number"]) := by
  have hc := validateChecks_tel input ht hv
  have hiff : (validateInput input).1 = true ↔
      PhoneShape ((jsTrim input.value).data.filter fun c => !isPhoneSeparator c) := by
    rw [validateInput_fst, hc, ← regexTest_phone_iff_shape]
    by_cases h : regexTest phoneRegex
      ((jsTrim input.value).data.filter fun c => !isPhoneSeparator c) = true <;> simp [h]
  refine ⟨hiff, fun hn => ?_⟩
  have hr : regexTest phoneRegex
      ((jsTrim input.value).data.filter fun c => !isPhoneSeparator c) = false := by
    rw [← regexTest_phone_iff_shape] at hn
    simpa using hn
  have hf : (validateChecks input).1 = false := by rw [hc]; simp [hr]
  refine ⟨by rw [validateInput_fst]; exact hf, ?_⟩
  rw [validateInput_feedback_of_invalid input hf, hc]
  simp [hr]

theorem validateInput_tel_witness :
    PhoneShape ((jsTrim " +91 (987) 654-3210 ").data.filter fun c => !isPhoneSeparator c) ∧
    ((validateInput ⟨" +91 (987) 654-3210 ", "tel", true, [], []⟩).1 = true ↔
      PhoneShape ((jsTrim " +91 (987) 654-3210 ").data.filter fun c => !isPhoneSeparator c)) :=
  have h := validateInput_tel ⟨" +91 (987) 654-3210 ", "tel", true, [], []⟩ rfl (by decide)
  ⟨h.1.1 (by decide), h.1⟩

/-! ## Properties: the quantity buttons -/

theorem digitChar_spec :
    ∀ k, k < 10 →
      digitValue (Nat.digitChar k) = some k ∧ isDecimalDigit (Nat.digitChar k) = true := by
  decide

theorem digitsValue_append_single (radix : Nat) (ds : List Char) (c : Char) :
    digitsValue radix (ds ++ [c]) = digitsValue radix ds * radix + (digitValue c).getD 0 := by
  simp [digitsValue, List.foldl_append]

theorem toDigitsCore_spec (fuel : Nat) :
    ∀ n acc, n < fuel →
      ∃ ds, Nat.toDigitsCore 10 fuel n acc = ds ++ acc ∧ ds ≠ [] ∧
        (∀ c ∈ ds, isDecimalDigit c = true) ∧ digitsValue 10 ds = n := by
  induction fuel with
  | zero => intro n acc h; omega
  | succ fuel ih =>
    intro n acc hn
    have hd := digitChar_spec (n % 10) (Nat.mod_lt _ (by decide))
    unfold Nat.toDigitsCore
    by_cases h0 : n / 10 = 0
    · refine ⟨[Nat.digitChar (n % 10)], by simp [h0], by simp, by simpa using hd.2, ?_⟩
      have hmod : n % 10 = n := Nat.mod_eq_of_lt (by omega)
      simp only [digitsValue, List.foldl, hd.1, Option.getD_some]
      omega
    · obtain ⟨ds, hds, hne, hall, hval⟩ :=
        ih (n / 10) (Nat.digitChar (n % 10) :: acc) (by omega)
      refine ⟨ds ++ [Nat.digitChar (n % 10)], by simp [h0, hds], by simp, ?_, ?_⟩
      · intro c hc
        rcases List.mem_append.1 hc with hc | hc
        · exact hall c hc
        · simp only [List.mem_singleton] at hc; subst hc; exact hd.2
      · rw [digitsValue_append_single, hval, hd.1]
        simp only [Option.getD_some]
        omega

theorem repr_spec (n : Nat) :
    (Nat.repr n).data ≠ [] ∧ (∀ c ∈ (Nat.repr n).data, isDecimalDigit c = true) ∧
      digitsValue 10 (Nat.repr n).data = n := by
  obtain ⟨ds, hds, hne, hall, hval⟩ := toDigitsCore_spec (n + 1) n [] (Nat.lt_succ_self n)
  have : (Nat.repr n).data = ds := by
    simp [Nat.repr, Nat.toDigits, hds, List.asString]
  rw [this]
  exact ⟨hne, hall, hval⟩

theorem isDecimalDigit_bounds {c : Char} (h : isDecimalDigit c = true) :
    48 ≤ c.toNat ∧ c.toNat ≤ 57 := by
  have h0 : ('0' : Char).toNat = 48 := rfl
  have h9 : ('9' : Char).toNat = 57 := rfl
  simpa [isDecimalDigit, h0, h9] using h

theorem not_whiteSpace_of_digit {c : Char} (h : isDecimalDigit c = true) :
    isWhiteSpace c = false := by
  have hb := isDecimalDigit_bounds h
  simp only [isWhiteSpace, Bool.or_eq_false_iff, beq_eq_false_iff_ne, ne_eq,
    Bool.and_eq_false_iff, decide_eq_false_iff_not]
  omega

theorem isRadixDigit_of_digit {c : Char} (h : isDecimalDigit c = true) :
    isRadixDigit 10 c = true := by
  have hb := isDecimalDigit_bounds h
  have h0 : ('0' : Char).toNat = 48 := rfl
  have h9 : ('9' : Char).toNat = 57 := rfl
  have : digitValue c = some (c.toNat - 48) := by
    simp [digitValue, h0, h9, hb.1, hb.2]
  simp only [isRadixDigit, this, decide_eq_true_eq]
  omega

theorem stripSign_of_digits (ds : List Char) (hall : ∀ c ∈ ds, isDecimalDigit c = true) :
    stripSign ds = (false, ds) := by
  unfold stripSign
  split
  · exact absurd (hall '-' (by simp)) (by decide)
  · exact absurd (hall '+' (by simp)) (by decide)
  · rfl

theorem stripRadix_of_digits (ds : List Char)
    (hall : ∀ c ∈ ds, isDecimalDigit c = true) : stripRadix ds = (10, ds) := by
  unfold stripRadix
  split
  · exact absurd (hall 'x' (by simp)) (by decide)
  · exact absurd (hall 'X' (by simp)) (by decide)
  · rfl

theorem dropWhile_whiteSpace_of_digits (ds : List Char)
    (hall : ∀ c ∈ ds, isDecimalDigit c = true) : ds.dropWhile isWhiteSpace = ds := by
  cases ds with
  | nil => rfl
  | cons c r => simp [List.dropWhile, not_whiteSpace_of_digit (hall c (by simp))]

theorem takeWhile_digits (ds : List Char) (hall : ∀ c ∈ ds, isDecimalDigit c = true) :
    ds.takeWhile (isRadixDigit 10) = ds := by
  induction ds with
  | nil => rfl
  | cons c r ih =>
    have hc := isRadixDigit_of_digit (hall c (by simp))
    simp only [List.takeWhile, hc]
    rw [ih fun x hx => hall x (by simp [hx])]

theorem parseInt_repr (n : Nat) (hn : n ≤ maxContiguous) :
    parseInt (Nat.repr n) = some (JSNumber.int n) := by
  obtain ⟨hne, hall, hval⟩ := repr_spec n
  unfold parseInt
  simp only [dropWhile_whiteSpace_of_digits _ hall, stripSign_of_digits _ hall,
    stripRadix_of_digits _ hall, takeWhile_digits _ hall, hval]
  cases h : (Nat.repr n).data with
  | nil => exact absurd h hne
  | cons c r => simp [hn]

theorem toText_nat (n : Nat) : (JSNumber.int n).toText = Nat.repr n := by
  have h : ¬ ((n : Int) < 0) := by omega
  simp [JSNumber.toText, h]

theorem incr_nat (n : Nat) (h : n < maxContiguous) :
    (JSNumber.int n).incr = JSNumber.int ((n + 1 : Nat) : Int) := by
  have h' : (n : Int) < (maxContiguous : Int) := by exact_mod_cast h
  simp [JSNumber.incr, h']

theorem decr_nat (n : Nat) (h : 1 ≤ n) :
    (JSNumber.int n).decr = JSNumber.int ((n - 1 : Nat) : Int) := by
  have h' : -(maxContiguous : Int) < (n : Int) := by
    have : (0 : Int) ≤ (maxContiguous : Int) := Int.ofNat_nonneg _
    omega
  simp only [JSNumber.decr, h', if_true]
  congr 1
  omega

theorem gtOne_nat (n : Nat) : (JSNumber.int n).gtOne = decide (1 < n) := by
  simp [JSNumber.gtOne]

theorem increaseClick_of_shown (f : CartForm) (q : Nat) (hd : f.qtyDisplay = Nat.repr q)
    (hq : q < maxContiguous) :
    increaseClick f =
      some { f with qtyDisplay := Nat.repr (q + 1), qtyField := Nat.repr (q + 1) } := by
  unfold increaseClick
  rw [hd, parseInt_repr q (Nat.le_of_lt hq)]
  simp only [Option.bind_eq_bind, Option.some_bind, incr_nat q hq, toText_nat]
  rfl

theorem decreaseClick_of_shown (f : CartForm) (q : Nat) (hd : f.qtyDisplay = Nat.repr q)
    (hq : q ≤ maxContiguous) :
    decreaseClick f =
      if 1 < q then some { f with qtyDisplay := Nat.repr (q - 1), qtyField := Nat.repr (q - 1) }
      else some f := by
  unfold decreaseClick
  rw [hd, parseInt_repr q hq]
  simp only [Option.bind_eq_bind, Option.some_bind, gtOne_nat]
  by_cases h : 1 < q
  · simp only [h, decide_True, if_true, decr_nat q (by omega), toText_nat]
    rfl
  · simp only [h, decide_False, if_false]
    rfl

theorem specQty_cons (q : Nat) (c : QtyClick) (cs : List QtyClick) :
    specQty q (c :: cs) = specQty (specQtyStep q c) cs := by
  simp [specQty]

/-- C5, as the code behaves: on a `.cart-form` whose quantity display and
hidden quantity field both show an integer `q ≥ 1`, every sequence of clicks
on the increase and decrease buttons during which the quantity to be shown
never exceeds `2 ^ 53` runs to completion; each increase turns the shown
quantity `q` into `q + 1`, each decrease turns it into `q - 1` when `q > 1` and
leaves it when `q = 1`; the shown quantity is never below 1 and the hidden
field always equals the display. -/
theorem qtyClicks_follow_spec (cs : List QtyClick) :
    ∀ (f : CartForm) (q : Nat), 1 ≤ q → f.qtyDisplay = Nat.repr q → f.qtyField = Nat.repr q →
      (∀ k, k ≤ cs.length → specQty q (cs.take k) ≤ maxContiguous) →
      ∃ g, qtyClicks f cs = some g ∧ g.qtyDisplay = Nat.repr (specQty q cs) ∧
        g.qtyField = g.qtyDisplay ∧ 1 ≤ specQty q cs := by
  induction cs with
  | nil =>
    intro f q hq hd hf _
    exact ⟨f, rfl, hd, by rw [hf, hd], hq⟩
  | cons c cs ih =>
    intro f q hq hd hf hb
    have hq0 : q ≤ maxContiguous := by simpa [specQty] using hb 0 (Nat.zero_le _)
    have htail : ∀ k, k ≤ cs.length →
        specQty (specQtyStep q c) (cs.take k) ≤ maxContiguous := by
      intro k hk
      have := hb (k + 1) (by simp; omega)
      rwa [List.take_succ_cons, specQty_cons] at this
    have hq1 : specQtyStep q c ≤ maxContiguous := by
      simpa [specQty] using htail 0 (Nat.zero_le _)
    rw [specQty_cons]
    cases c with
    | increase =>
      have hlt : q < maxContiguous := by simp only [specQtyStep] at hq1; omega
      have hstep := increaseClick_of_shown f q hd hlt
      obtain ⟨g, hg⟩ := ih { f with qtyDisplay := Nat.repr (q + 1), qtyField := Nat.repr (q + 1) }
        (q + 1) (by omega) rfl rfl htail
      exact ⟨g, by simpa [qtyClicks, qtyClick, hstep, specQtyStep] using hg⟩
    | decrease =>
      have hstep := decreaseClick_of_shown f q hd hq0
      by_cases h : 1 < q
      · rw [if_pos h] at hstep
        have hs : specQtyStep q QtyClick.decrease = q - 1 := by simp [specQtyStep, h]
        rw [hs] at htail ⊢
        obtain ⟨g, hg⟩ := ih
          { f with qtyDisplay := Nat.repr (q - 1), qtyField := Nat.repr (q - 1) }
          (q - 1) (by omega) rfl rfl htail
        exact ⟨g, by simpa [qtyClicks, qtyClick, hstep] using hg⟩
      · rw [if_neg h] at hstep
        have hs : specQtyStep q QtyClick.decrease = q := by simp [specQtyStep, h]
        rw [hs] at htail ⊢
        obtain ⟨g, hg⟩ := ih f q hq hd hf htail
        exact ⟨g, by simpa [qtyClicks, qtyClick, hstep] using hg⟩

theorem qtyClicks_follow_spec_witness :
    ∃ g, qtyClicks ⟨"Lamp", true, "flex", "1", "1", 0, "", [], [], []⟩
        [.increase, .increase, .decrease, .decrease, .decrease, .increase] = some g ∧
      g.qtyDisplay = Nat.repr (specQty 1
        [.increase, .increase, .decrease, .decrease, .decrease, .increase]) ∧
      g.qtyField = g.qtyDisplay ∧
      1 ≤ specQty 1 [.increase, .increase, .decrease, .decrease, .decrease, .increase] :=
  qtyClicks_follow_spec [.increase, .increase, .decrease, .decrease, .decrease, .increase]
    ⟨"Lamp", true, "flex", "1", "1", 0, "", [], [], []⟩ 1 (by decide) (by decide) (by decide)
    (by decide)

/-- C5 fails as stated: when the display shows `9007199254740992` (`2 ^ 53`), a
click on the increase button leaves the display at `9007199254740992` instead
of `9007199254740993`, because `qty++` cannot leave the exactly representable
integers. -/
theorem increaseClick_saturates :
    (increaseClick ⟨"Lamp", true, "flex", "9007199254740992", "9007199254740992", 0, "", [],
      [], []⟩).map (fun g => g.qtyDisplay) = some "9007199254740992" ∧
    "9007199254740992" ≠ Nat.repr (9007199254740992 + 1) := by
  decide

end Walls
